import Mathlib

/-!
Verification of the `dm-data-noise-adder` tool (src/main.py).

The program reads a CSV file into a pandas DataFrame, perturbs one numeric
column by a multiplicative factor `(1 + u)` with `u` drawn uniformly from
`[min_noise, max_noise)` for each row, and writes the result.  We embed the
data model (a DataFrame as an ordered association list of named columns),
the process-wide random state (the numpy global generator, modelled as an
abstract stream of raw uniform draws in `[0,1)`, plus the python `random`
module state which is seeded but never drawn from), the `add_noise`
function, a reference layer capturing the pandas in-place column assignment,
and the `main` driver over a modelled file system.
-/

namespace DM

/-- A cell value of the tabular data: numeric (pandas int/float dtype,
modelled exactly by `ℚ`) or non-numeric (object dtype, e.g. text). -/
inductive Value where
  | num (x : ℚ)
  | str (s : String)
deriving DecidableEq, Repr

/-- The numeric content of a cell; `0` on the non-numeric constructor,
which is only used below cells already checked to be numeric. -/
def Value.getNum : Value → ℚ
  | .num x => x
  | .str _ => 0

/-- Returns `true` exactly on numeric cells. -/
def Value.isNum : Value → Bool
  | .num _ => true
  | .str _ => false

/-- A pandas DataFrame: an ordered list of named columns, each an ordered
list of cell values aligned by row index. -/
structure DataFrame where
  cols : List (String × List Value)
deriving DecidableEq, Repr

/-- The ordered list of column names (`data.columns` in pandas). -/
def DataFrame.columns (d : DataFrame) : List String :=
  d.cols.map Prod.fst

/-- Lookup of a named column in the ordered column list. -/
def lookupCol : List (String × List Value) → String → Option (List Value)
  | [], _ => none
  | p :: t, c => if p.1 = c then some p.2 else lookupCol t c

/-- Replacement of the values of a named column, keeping its position;
the identity on an absent name (the program only assigns to a column it
has already found). -/
def setColList : List (String × List Value) → String → List Value → List (String × List Value)
  | [], _, _ => []
  | p :: t, c, vs => if p.1 = c then (c, vs) :: t else p :: setColList t c vs

/-- Look a column up by name (`data[name]`); `none` when absent. -/
def DataFrame.getCol (d : DataFrame) (c : String) : Option (List Value) :=
  lookupCol d.cols c

/-- Column assignment `data[name] = vs`. -/
def DataFrame.setCol (d : DataFrame) (c : String) (vs : List Value) : DataFrame :=
  ⟨setColList d.cols c vs⟩

/-- Model of `pd.api.types.is_numeric_dtype`: the column holds numeric values only. -/
def numericCol (vs : List Value) : Bool :=
  vs.all Value.isNum

/-- Model of the numpy global random generator, abstract: a stream of raw
uniform draws in `[0,1)` together with the position of the next draw. -/
structure RNG where
  stream : Nat → ℚ
  idx : Nat

/-- The generator is well-formed: every raw draw lies in `[0,1)`. -/
def RNG.valid (g : RNG) : Prop :=
  ∀ n, 0 ≤ g.stream n ∧ g.stream n < 1

/-- Model of `np.random.uniform(a, b)`: scale the next raw draw affinely into
`[a, b)` and advance the generator. -/
def npUniform (a b : ℚ) (g : RNG) : ℚ × RNG :=
  (a + (b - a) * g.stream g.idx, ⟨g.stream, g.idx + 1⟩)

/-- The value of the `i`-th uniform draw performed from state `g`. -/
def drawU (g : RNG) (a b : ℚ) (i : Nat) : ℚ :=
  a + (b - a) * g.stream (g.idx + i)

/-- One step of a 32-bit linear congruential generator. -/
def lcgStep (x : Nat) : Nat :=
  (1664525 * x + 1013904223) % 4294967296

/-- Modelled from the spec: `np.random.seed(seed)` resets the numpy global
generator to a state determined by the seed alone ("the random
generator(s) used for the draw are reseeded deterministically before any
draw occurs").  The Mersenne-Twister internals are not in the repository;
any concrete deterministic stream with draws in `[0,1)` represents it, and
we use a 32-bit LCG over `ℚ`. -/
def seedRNG (s : Int) : RNG :=
  ⟨fun n => ((lcgStep^[n + 1] (s.toNat % 4294967296) : Nat) : ℚ) / 4294967296, 0⟩

/-- The process-wide random state: the numpy global generator (the only one
drawn from) and the python `random` module state, which `add_noise` only
ever reseeds.  The python generator state is represented by the last seed
given to it, `none` for an unknown ambient state. -/
structure ProcState where
  npRandom : RNG
  pyRandomSeed : Option Int

/-- The numpy generator state in effect for the draws: the ambient one, or
the reseeded one when a seed is supplied. -/
def effRNG (st : ProcState) (seed : Option Int) : RNG :=
  match seed with
  | none => st.npRandom
  | some s => seedRNG s

/-- The python `random` module state after the optional `random.seed(seed)`. -/
def pySeed (st : ProcState) (seed : Option Int) : Option Int :=
  match seed with
  | none => st.pyRandomSeed
  | some s => some s

/-- The validation failures of `add_noise`, in the spec's taxonomy:
`ValueError` for a missing column, `TypeError` for a non-numeric column,
`ValueError` for an invalid range. -/
inductive NoiseError where
  | UnknownColumn
  | NonNumericColumn
  | InvalidRange
deriving DecidableEq, Repr

/-- The body of the `apply` lambda, `x * (1 + u)`, on one cell.  The
non-numeric branch is unreachable in `add_noise`: the dtype check has
already passed when the lambda runs. -/
def noiseVal (u : ℚ) : Value → Value
  | .num x => .num (x * (1 + u))
  | .str s => .str s

/-- Model of `column.apply(lambda x: x * (1 + np.random.uniform(a, b)))`: map the
lambda over the column in row order, drawing once per row and threading
the generator state. -/
def noiseColumn (a b : ℚ) : List Value → RNG → List Value × RNG
  | [], g => ([], g)
  | v :: vs, g =>
    let p := npUniform a b g
    let rest := noiseColumn a b vs p.2
    (noiseVal p.1 v :: rest.1, rest.2)

/-- The function `add_noise(data, column_name, min_noise, max_noise, seed)` from
src/main.py.  In order: column-presence check, dtype check, range check;
then the optional reseed of both global generators; then the column map.
Raised validation errors propagate to the caller (the internal
log-and-reraise handlers do not change them); the global random state at
raise time is the input state, since reseeding follows all three checks. -/
def add_noise (st : ProcState) (data : DataFrame) (column_name : String)
    (min_noise max_noise : ℚ) (seed : Option Int) :
    ProcState × Except NoiseError DataFrame :=
  match data.getCol column_name with
  | none => (st, .error .UnknownColumn)
  | some col =>
    if numericCol col then
      if min_noise ≥ max_noise then
        (st, .error .InvalidRange)
      else
        (⟨(noiseColumn min_noise max_noise col (effRNG st seed)).2, pySeed st seed⟩,
         .ok (data.setCol column_name
           (noiseColumn min_noise max_noise col (effRNG st seed)).1))
    else (st, .error .NonNumericColumn)

/-- A heap of DataFrame objects; a python reference is an index into it. -/
abbrev Heap := List DataFrame

/-- The empty frame, used as the default for out-of-range references. -/
def emptyDf : DataFrame := ⟨[]⟩

/-- Object-level `add_noise`: the caller holds reference `r`; the
single mutating statement `data[column_name] = ...` writes back through
that same reference, and `return data` returns the reference unchanged.
On a raised error the heap is untouched (the assignment is never reached). -/
def add_noise_ref (st : ProcState) (h : Heap) (r : Nat) (column_name : String)
    (min_noise max_noise : ℚ) (seed : Option Int) :
    ProcState × Heap × Except NoiseError Nat :=
  match add_noise st (h.getD r emptyDf) column_name min_noise max_noise seed with
  | (st', .error e) => (st', h, .error e)
  | (st', .ok d') => (st', h.set r d', .ok r)

/-- Contents of a path in the modelled file system: a CSV parseable into a
DataFrame, or a file `pd.read_csv` rejects with `EmptyDataError`. -/
inductive FileData where
  | empty
  | csv (d : DataFrame)
deriving DecidableEq, Repr

/-- The file system: an association of paths to file contents. -/
abbrev FS := List (String × FileData)

/-- Read a path; `none` means `FileNotFoundError`. -/
def FS.read (fs : FS) (p : String) : Option FileData :=
  (fs.find? (fun q => q.1 == p)).map Prod.snd

/-- Write a path (`data.to_csv(output_file, index=False)`). -/
def FS.write (fs : FS) (p : String) (d : FileData) : FS :=
  (p, d) :: fs

/-- The parsed command-line arguments of the tool. -/
structure Args where
  input_file : String
  output_file : String
  column_name : String
  min_noise : ℚ
  max_noise : ℚ
  seed : Option Int
deriving Repr

/-- How one invocation of `main` ends; every failure is caught, logged and
swallowed, so the constructor records which handler fired. -/
inductive MainResult where
  | success
  | inputNotFound
  | emptyInput
  | failed (e : NoiseError)
deriving DecidableEq, Repr

/-- The driver `main()` from src/main.py: read the input CSV, call `add_noise`, and
write the output CSV only when the call returned normally; on
`FileNotFoundError`, `EmptyDataError` or a propagated `add_noise` error the
handler logs and returns without writing. -/
def runMain (st : ProcState) (fs : FS) (args : Args) : ProcState × FS × MainResult :=
  match fs.read args.input_file with
  | none => (st, fs, .inputNotFound)
  | some .empty => (st, fs, .emptyInput)
  | some (.csv data) =>
    match add_noise st data args.column_name args.min_noise args.max_noise args.seed with
    | (st', .error e) => (st', fs, .failed e)
    | (st', .ok d') => (st', fs.write args.output_file (.csv d'), .success)

/-- The end-to-end example dataset of the spec: columns `id` and `salary`. -/
def salaryDf : DataFrame :=
  ⟨[("id", [.num 1, .num 2]), ("salary", [.num 1000, .num 2000])]⟩

/-- A concrete ambient process state for witnesses: an all-zero raw stream
(raw draws in `[0,1)`) and an unknown python random state. -/
def st0 : ProcState :=
  ⟨⟨fun _ => 0, 0⟩, none⟩

/-! ### Basic lemmas about the model -/

theorem noiseColumn_length (a b : ℚ) (vs : List Value) (g : RNG) :
    (noiseColumn a b vs g).1.length = vs.length := by
  induction vs generalizing g with
  | nil => rfl
  | cons v t ih => simp [noiseColumn, ih]

theorem noiseColumn_getElem? (a b : ℚ) (vs : List Value) (g : RNG) (i : Nat) :
    (noiseColumn a b vs g).1[i]? = vs[i]?.map (fun v => noiseVal (drawU g a b i) v) := by
  induction vs generalizing g i with
  | nil => simp [noiseColumn]
  | cons v t ih =>
    cases i with
    | zero => simp [noiseColumn, npUniform, drawU]
    | succ j =>
      simp only [noiseColumn, List.getElem?_cons_succ]
      rw [ih]
      have hd : drawU (npUniform a b g).2 a b j = drawU g a b (j + 1) := by
        simp only [drawU, npUniform]
        rw [show g.idx + 1 + j = g.idx + (j + 1) from by omega]
      rw [hd]

theorem getCol_setCol_ne (d : DataFrame) (c c' : String) (vs : List Value)
    (h : c' ≠ c) : (d.setCol c vs).getCol c' = d.getCol c' := by
  obtain ⟨l⟩ := d
  simp only [DataFrame.setCol, DataFrame.getCol]
  induction l with
  | nil => rfl
  | cons p t ih =>
    by_cases hp : p.1 = c
    · have hcc : ¬ c = c' := fun hcc => h hcc.symm
      have hpc : ¬ p.1 = c' := by rw [hp]; exact hcc
      simp [setColList, lookupCol, hp, hcc, hpc]
    · simp only [setColList, if_neg hp, lookupCol]
      by_cases hc : p.1 = c'
      · simp [hc]
      · simp [hc, ih]

theorem getCol_setCol_self (d : DataFrame) (c : String) (vs col : List Value)
    (h : d.getCol c = some col) : (d.setCol c vs).getCol c = some vs := by
  obtain ⟨l⟩ := d
  simp only [DataFrame.setCol, DataFrame.getCol] at h ⊢
  induction l with
  | nil => simp [lookupCol] at h
  | cons p t ih =>
    by_cases hp : p.1 = c
    · simp [setColList, lookupCol, hp]
    · simp only [setColList, if_neg hp, lookupCol] at h ⊢
      exact ih h

theorem columns_setCol (d : DataFrame) (c : String) (vs : List Value) :
    (d.setCol c vs).columns = d.columns := by
  obtain ⟨l⟩ := d
  simp only [DataFrame.setCol, DataFrame.columns]
  induction l with
  | nil => rfl
  | cons p t ih =>
    by_cases hp : p.1 = c
    · simp [setColList, hp]
    · simp only [setColList, if_neg hp, List.map_cons]
      rw [ih]

theorem lcgStep_lt (x : Nat) : lcgStep x < 4294967296 :=
  Nat.mod_lt _ (by norm_num)

theorem seedRNG_valid (s : Int) : (seedRNG s).valid := by
  intro n
  have h : lcgStep^[n + 1] (s.toNat % 4294967296) < 4294967296 := by
    rw [Function.iterate_succ_apply']
    exact lcgStep_lt _
  constructor
  · show (0:ℚ) ≤ ((lcgStep^[n + 1] (s.toNat % 4294967296) : Nat) : ℚ) / 4294967296
    positivity
  · show ((lcgStep^[n + 1] (s.toNat % 4294967296) : Nat) : ℚ) / 4294967296 < 1
    rw [div_lt_one (by norm_num)]
    exact_mod_cast h

theorem effRNG_valid (st : ProcState) (seed : Option Int) (h : st.npRandom.valid) :
    (effRNG st seed).valid := by
  cases seed with
  | none => exact h
  | some s => exact seedRNG_valid s

theorem st0_valid : st0.npRandom.valid := by
  intro n
  constructor
  · show (0:ℚ) ≤ 0
    exact le_refl 0
  · show (0:ℚ) < 1
    norm_num

theorem drawU_mem (g : RNG) (hg : g.valid) (a b : ℚ) (hab : a < b) (i : Nat) :
    a ≤ drawU g a b i ∧ drawU g a b i < b := by
  obtain ⟨h0, h1⟩ := hg (g.idx + i)
  unfold drawU
  constructor
  · nlinarith
  · nlinarith

/-- Characterisation of the success case of `add_noise`: it returns
normally exactly when all three checks pass, and then the output frame is
the input with the target column mapped through the per-row draws. -/
theorem add_noise_ok_iff (st : ProcState) (d : DataFrame) (cn : String) (a b : ℚ)
    (seed : Option Int) (st' : ProcState) (d' : DataFrame) :
    add_noise st d cn a b seed = (st', .ok d') ↔
    ∃ col, d.getCol cn = some col ∧ numericCol col = true ∧ a < b ∧
      st' = ⟨(noiseColumn a b col (effRNG st seed)).2, pySeed st seed⟩ ∧
      d' = d.setCol cn (noiseColumn a b col (effRNG st seed)).1 := by
  unfold add_noise
  cases hd : d.getCol cn with
  | none => simp
  | some col =>
    by_cases hn : numericCol col = true
    · by_cases hr : a ≥ b
      · simp only [if_pos hn, if_pos hr]
        constructor
        · intro hE
          exact absurd (congrArg Prod.snd hE) (by simp)
        · rintro ⟨c2, hc2, hn2, hab2, -⟩
          exact absurd hr (not_le.mpr hab2)
      · simp only [if_pos hn, if_neg hr]
        constructor
        · intro hE
          injection hE with h1 h2
          injection h2 with h3
          exact ⟨col, rfl, hn, not_le.mp hr, h1.symm, h3.symm⟩
        · rintro ⟨c2, hc2, -, -, hst, hd2⟩
          have hcc : col = c2 := by injection hc2
          subst hcc
          rw [hst, hd2]
    · simp only [if_neg hn]
      constructor
      · intro hE
        exact absurd (congrArg Prod.snd hE) (by simp)
      · rintro ⟨c2, hc2, hn2, -⟩
        have hcc : col = c2 := by injection hc2
        subst hcc
        exact absurd hn2 hn

theorem add_noise_unknown (st : ProcState) (d : DataFrame) (cn : String) (a b : ℚ)
    (seed : Option Int) (h : d.getCol cn = none) :
    add_noise st d cn a b seed = (st, .error .UnknownColumn) := by
  unfold add_noise
  rw [h]

theorem add_noise_nonnum (st : ProcState) (d : DataFrame) (cn : String) (a b : ℚ)
    (seed : Option Int) (col : List Value) (h : d.getCol cn = some col)
    (hn : numericCol col = false) :
    add_noise st d cn a b seed = (st, .error .NonNumericColumn) := by
  unfold add_noise
  rw [h]
  simp [hn]

theorem add_noise_badrange (st : ProcState) (d : DataFrame) (cn : String) (a b : ℚ)
    (seed : Option Int) (col : List Value) (h : d.getCol cn = some col)
    (hn : numericCol col = true) (hr : b ≤ a) :
    add_noise st d cn a b seed = (st, .error .InvalidRange) := by
  unfold add_noise
  rw [h]
  simp [hn, hr, ge_iff_le]

/-! ### The claims -/

/-- C1: for every dataset, target column and valid range
(`min_noise < max_noise`), a call to `add_noise` whose preconditions pass
cannot fail, and each row `i` of the target column of the output equals its
input value multiplied by `(1 + u_i)`, where `u_i` is the `i`-th draw of
the effective generator scaled uniformly into `[min_noise, max_noise)`. -/
theorem add_noise_transform (st : ProcState) (data : DataFrame) (cn : String)
    (a b : ℚ) (seed : Option Int) (col : List Value)
    (hcol : data.getCol cn = some col) (hnum : numericCol col = true) (hab : a < b) :
    ∃ st' out, add_noise st data cn a b seed = (st', .ok (data.setCol cn out)) ∧
      out.length = col.length ∧
      ∀ i v, col[i]? = some v →
        out[i]? = some (Value.num (v.getNum * (1 + drawU (effRNG st seed) a b i))) := by
  refine ⟨⟨(noiseColumn a b col (effRNG st seed)).2, pySeed st seed⟩,
    (noiseColumn a b col (effRNG st seed)).1, ?_, noiseColumn_length a b col _, ?_⟩
  · unfold add_noise
    rw [hcol]
    simp [hnum, not_le.mpr hab]
  · intro i v hv
    rw [noiseColumn_getElem?, hv]
    have hmem : v ∈ col := List.getElem?_mem hv
    have hvn : v.isNum = true := by
      simp only [numericCol, List.all_eq_true] at hnum
      exact hnum v hmem
    cases v with
    | num x => simp [noiseVal, Value.getNum]
    | str s => simp [Value.isNum] at hvn

/-- Witness for C1 on the salary example of the spec with the ambient generator. -/
theorem add_noise_transform_witness :
    ∃ st' out,
      add_noise st0 salaryDf "salary" 0 1 none = (st', .ok (salaryDf.setCol "salary" out)) ∧
      out.length = [Value.num 1000, Value.num 2000].length ∧
      ∀ i v, [Value.num 1000, Value.num 2000][i]? = some v →
        out[i]? = some (Value.num (v.getNum * (1 + drawU (effRNG st0 none) 0 1 i))) :=
  add_noise_transform st0 salaryDf "salary" 0 1 none [Value.num 1000, Value.num 2000]
    rfl rfl (by norm_num)

/-- C2: with a fixed seed, data, column and range, the returned value of
`add_noise` is independent of the ambient process random state — two calls
that differ only in that state give bit-identical results, because the
generators are deterministically reseeded before any draw. -/
theorem add_noise_seed_deterministic (st1 st2 : ProcState) (d : DataFrame)
    (c : String) (a b : ℚ) (s : Int) :
    (add_noise st1 d c a b (some s)).2 = (add_noise st2 d c a b (some s)).2 := by
  unfold add_noise
  cases hd : d.getCol c with
  | none => rfl
  | some col =>
    by_cases hn : numericCol col = true
    · by_cases hr : a ≥ b
      · simp [hn, hr]
      · simp [hn, hr, effRNG]
    · simp [hn]

/-- C3: the three preconditions are checked in order — column presence
(`UnknownColumn`), numeric dtype (`NonNumericColumn`), then strict range
(`InvalidRange`) — before any mutation, and on any failure the dataset
object (and the process random state) is unchanged. -/
theorem add_noise_checks_in_order (st : ProcState) (h : Heap) (r : Nat) (cn : String)
    (a b : ℚ) (seed : Option Int) (st' : ProcState) (h' : Heap)
    (res : Except NoiseError Nat)
    (hR : add_noise_ref st h r cn a b seed = (st', h', res)) :
    (res = .error .UnknownColumn ↔ (h.getD r emptyDf).getCol cn = none) ∧
    (res = .error .NonNumericColumn ↔
      ∃ col, (h.getD r emptyDf).getCol cn = some col ∧ numericCol col = false) ∧
    (res = .error .InvalidRange ↔
      ∃ col, (h.getD r emptyDf).getCol cn = some col ∧ numericCol col = true ∧ b ≤ a) ∧
    (∀ e, res = .error e → h' = h ∧ st' = st) := by
  unfold add_noise_ref at hR
  cases hd : (h.getD r emptyDf).getCol cn with
  | none =>
    rw [add_noise_unknown st _ cn a b seed hd] at hR
    simp only [Prod.mk.injEq] at hR
    obtain ⟨rfl, rfl, rfl⟩ := hR
    refine ⟨by simp [hd], by simp, by simp, fun e _ => ⟨rfl, rfl⟩⟩
  | some col =>
    by_cases hn : numericCol col = true
    · by_cases hr : b ≤ a
      · rw [add_noise_badrange st _ cn a b seed col hd hn hr] at hR
        simp only [Prod.mk.injEq] at hR
        obtain ⟨rfl, rfl, rfl⟩ := hR
        refine ⟨by simp [hd], ?_, ?_, fun e _ => ⟨rfl, rfl⟩⟩
        · constructor
          · intro hE
            exact absurd hE (by simp)
          · rintro ⟨c2, hc2, hn2⟩
            have : col = c2 := by injection hc2
            subst this
            rw [hn] at hn2
            cases hn2
        · exact ⟨fun _ => ⟨col, rfl, hn, hr⟩, fun _ => rfl⟩
      · have hok := (add_noise_ok_iff st (h.getD r emptyDf) cn a b seed
          ⟨(noiseColumn a b col (effRNG st seed)).2, pySeed st seed⟩
          ((h.getD r emptyDf).setCol cn (noiseColumn a b col (effRNG st seed)).1)).mpr
          ⟨col, hd, hn, not_le.mp hr, rfl, rfl⟩
        rw [hok] at hR
        simp only [Prod.mk.injEq] at hR
        obtain ⟨rfl, rfl, rfl⟩ := hR
        refine ⟨by simp [hd], ?_, ?_, by simp⟩
        · constructor
          · intro hE
            cases hE
          · rintro ⟨c2, hc2, hn2⟩
            have : col = c2 := by injection hc2
            subst this
            rw [hn] at hn2
            cases hn2
        · constructor
          · intro hE
            cases hE
          · rintro ⟨c2, hc2, -, hba⟩
            exact absurd hba hr
    · have hn' : numericCol col = false := by simpa using hn
      rw [add_noise_nonnum st _ cn a b seed col hd hn'] at hR
      simp only [Prod.mk.injEq] at hR
      obtain ⟨rfl, rfl, rfl⟩ := hR
      refine ⟨by simp [hd], ?_, ?_, fun e _ => ⟨rfl, rfl⟩⟩
      · exact ⟨fun _ => ⟨col, rfl, hn'⟩, fun _ => rfl⟩
      · constructor
        · intro hE
          exact absurd hE (by simp)
        · rintro ⟨c2, hc2, hn2, -⟩
          have : col = c2 := by injection hc2
          subst this
          rw [hn'] at hn2
          cases hn2

/-- Witness for C3 on a missing column of the salary example. -/
theorem add_noise_checks_in_order_witness :
    ∃ res : Except NoiseError Nat,
      add_noise_ref st0 [salaryDf] 0 "missing" 0 1 none = (st0, [salaryDf], res) ∧
      (res = .error .UnknownColumn ↔
        (([salaryDf] : Heap).getD 0 emptyDf).getCol "missing" = none) := by
  refine ⟨.error .UnknownColumn, rfl, ?_⟩
  exact (add_noise_checks_in_order st0 [salaryDf] 0 "missing" 0 1 none
    st0 [salaryDf] (.error .UnknownColumn) rfl).1

/-- C4: equal noise bounds are rejected as `InvalidRange` for any seed (in
particular `min_noise = max_noise = 0` on the example salary dataset),
never treated as a zero-noise no-op. -/
theorem equal_bounds_rejected (st : ProcState) (seed : Option Int) (d : DataFrame)
    (cn : String) (a : ℚ) (col : List Value)
    (hcol : d.getCol cn = some col) (hnum : numericCol col = true) :
    (add_noise st d cn a a seed).2 = .error .InvalidRange ∧
    (add_noise st salaryDf "salary" 0 0 seed).2 = .error .InvalidRange := by
  constructor
  · rw [add_noise_badrange st d cn a a seed col hcol hnum (le_refl a)]
  · rw [add_noise_badrange st salaryDf "salary" 0 0 seed
      [Value.num 1000, Value.num 2000] rfl rfl (le_refl 0)]

/-- Witness for C4 on the salary example with a concrete seed. -/
theorem equal_bounds_rejected_witness :
    (add_noise st0 salaryDf "salary" 5 5 (some 42)).2 = .error .InvalidRange ∧
    (add_noise st0 salaryDf "salary" 0 0 (some 42)).2 = .error .InvalidRange :=
  equal_bounds_rejected st0 (some 42) salaryDf "salary" 5
    [Value.num 1000, Value.num 2000] rfl rfl

/-- C5: column isolation — after a successful call, every column other than
the target reads back exactly its input values. -/
theorem column_isolation (st : ProcState) (d : DataFrame) (cn : String) (a b : ℚ)
    (seed : Option Int) (st' : ProcState) (d' : DataFrame)
    (hok : add_noise st d cn a b seed = (st', .ok d'))
    (c' : String) (hne : c' ≠ cn) :
    d'.getCol c' = d.getCol c' := by
  obtain ⟨col, hcol, hn, hab, hst, hd'⟩ :=
    (add_noise_ok_iff st d cn a b seed st' d').mp hok
  rw [hd']
  exact getCol_setCol_ne d cn c' _ hne

/-- Witness for C5: the `id` column of the salary example is untouched. -/
theorem column_isolation_witness :
    ∃ st' d', add_noise st0 salaryDf "salary" 0 1 none = (st', .ok d') ∧
      d'.getCol "id" = salaryDf.getCol "id" := by
  refine ⟨_, _, rfl, ?_⟩
  exact column_isolation st0 salaryDf "salary" 0 1 none _ _ rfl "id" (by decide)

/-- C6: a successful call preserves the ordered list of column names, the
length of every column (the row count), and the row order: for every
column, the output value at row `i` derives from the input value at the
same row `i` — unchanged for non-target columns, and the noised value of
input row `i` for the target column.  No row is moved, dropped or added. -/
theorem row_preservation (st : ProcState) (d : DataFrame) (cn : String) (a b : ℚ)
    (seed : Option Int) (st' : ProcState) (d' : DataFrame)
    (hok : add_noise st d cn a b seed = (st', .ok d')) :
    d'.columns = d.columns ∧
    ∀ c vs, d.getCol c = some vs →
      ∃ vs', d'.getCol c = some vs' ∧ vs'.length = vs.length ∧
        ∀ i, vs'[i]? = if c = cn
          then vs[i]?.map (fun v => noiseVal (drawU (effRNG st seed) a b i) v)
          else vs[i]? := by
  obtain ⟨col, hcol, hn, hab, hst, hd'⟩ :=
    (add_noise_ok_iff st d cn a b seed st' d').mp hok
  subst hd'
  refine ⟨columns_setCol d cn _, ?_⟩
  intro c vs hvs
  by_cases hc : c = cn
  · subst hc
    rw [hcol] at hvs
    have hcv : col = vs := by injection hvs
    subst hcv
    refine ⟨_, getCol_setCol_self d c _ col hcol, noiseColumn_length a b col _, ?_⟩
    intro i
    rw [if_pos rfl]
    exact noiseColumn_getElem? a b col _ i
  · rw [getCol_setCol_ne d cn c _ hc]
    refine ⟨vs, hvs, rfl, ?_⟩
    intro i
    rw [if_neg hc]

/-- Witness for C6 on the salary example. -/
theorem row_preservation_witness :
    ∃ st' d', add_noise st0 salaryDf "salary" 0 1 none = (st', .ok d') ∧
      d'.columns = salaryDf.columns ∧
      ∀ c vs, salaryDf.getCol c = some vs →
        ∃ vs', d'.getCol c = some vs' ∧ vs'.length = vs.length ∧
          ∀ i, vs'[i]? = if c = "salary"
            then vs[i]?.map (fun v => noiseVal (drawU (effRNG st0 none) 0 1 i) v)
            else vs[i]? := by
  refine ⟨_, _, rfl, ?_⟩
  exact row_preservation st0 salaryDf "salary" 0 1 none _ _ rfl

theorem runMain_notfound (st : ProcState) (fs : FS) (args : Args)
    (h : fs.read args.input_file = none) :
    runMain st fs args = (st, fs, .inputNotFound) := by
  unfold runMain
  rw [h]

theorem runMain_empty (st : ProcState) (fs : FS) (args : Args)
    (h : fs.read args.input_file = some .empty) :
    runMain st fs args = (st, fs, .emptyInput) := by
  unfold runMain
  rw [h]

theorem runMain_csv (st : ProcState) (fs : FS) (args : Args) (data : DataFrame)
    (h : fs.read args.input_file = some (.csv data)) :
    runMain st fs args =
      match add_noise st data args.column_name args.min_noise
        args.max_noise args.seed with
      | (st', .error e) => (st', fs, .failed e)
      | (st', .ok d') => (st', fs.write args.output_file (.csv d'), .success) := by
  unfold runMain
  rw [h]

/-- C7: every transformed value of a successful injection is
`v * (1 + u)` with the drawn offset `u` in `[min_noise, max_noise)`;
equivalently `v' / v - 1 = u ∈ [a, b)` whenever the input value `v` is
nonzero.  The ambient generator is assumed well-formed (raw draws in
`[0,1)`), which holds for every reseeded generator. -/
theorem noise_bounds (st : ProcState) (d : DataFrame) (cn : String) (a b : ℚ)
    (seed : Option Int) (st' : ProcState) (d' : DataFrame)
    (hvalid : st.npRandom.valid)
    (hok : add_noise st d cn a b seed = (st', .ok d'))
    (col out : List Value) (hcol : d.getCol cn = some col)
    (hout : d'.getCol cn = some out) (i : Nat) (v : Value) (hv : col[i]? = some v) :
    ∃ u, a ≤ u ∧ u < b ∧ out[i]? = some (Value.num (v.getNum * (1 + u))) ∧
      (v.getNum ≠ 0 → (v.getNum * (1 + u)) / v.getNum - 1 = u) := by
  obtain ⟨col2, hcol2, hn, hab, hst, hd'⟩ :=
    (add_noise_ok_iff st d cn a b seed st' d').mp hok
  rw [hcol] at hcol2
  have hc2 : col = col2 := by injection hcol2
  subst hc2
  rw [hd', getCol_setCol_self d cn _ col hcol] at hout
  have hout2 : (noiseColumn a b col (effRNG st seed)).1 = out := by injection hout
  subst hout2
  obtain ⟨hu1, hu2⟩ := drawU_mem _ (effRNG_valid st seed hvalid) a b hab i
  refine ⟨drawU (effRNG st seed) a b i, hu1, hu2, ?_, ?_⟩
  · rw [noiseColumn_getElem?, hv]
    have hmem : v ∈ col := List.getElem?_mem hv
    have hvn : v.isNum = true := by
      simp only [numericCol, List.all_eq_true] at hn
      exact hn v hmem
    cases v with
    | num x => simp [noiseVal, Value.getNum]
    | str s => simp [Value.isNum] at hvn
  · intro h0
    field_simp

/-- Witness for C7 on the first salary row with the ambient generator. -/
theorem noise_bounds_witness :
    ∃ st' d', add_noise st0 salaryDf "salary" 0 1 none = (st', .ok d') ∧
      ∃ out, d'.getCol "salary" = some out ∧
        ∃ u, (0:ℚ) ≤ u ∧ u < 1 ∧
          out[0]? = some (Value.num ((Value.num 1000).getNum * (1 + u))) ∧
          ((Value.num 1000).getNum ≠ 0 →
            ((Value.num 1000).getNum * (1 + u)) / (Value.num 1000).getNum - 1 = u) := by
  refine ⟨_, _, rfl, _, rfl, ?_⟩
  exact noise_bounds st0 salaryDf "salary" 0 1 none _ _ st0_valid rfl
    [Value.num 1000, Value.num 2000] _ rfl rfl 0 (Value.num 1000) rfl

/-- C8: on every failing run of `main` — missing input file, empty input
file, or any `add_noise` validation error — the file system is unchanged:
no output file is produced on any error path. -/
theorem no_output_on_error (st : ProcState) (fs : FS) (args : Args)
    (st' : ProcState) (fs' : FS) (res : MainResult)
    (hrun : runMain st fs args = (st', fs', res)) (hfail : res ≠ .success) :
    fs' = fs := by
  cases hread : fs.read args.input_file with
  | none =>
    rw [runMain_notfound st fs args hread] at hrun
    simp only [Prod.mk.injEq] at hrun
    exact hrun.2.1.symm
  | some fd =>
    cases fd with
    | empty =>
      rw [runMain_empty st fs args hread] at hrun
      simp only [Prod.mk.injEq] at hrun
      exact hrun.2.1.symm
    | csv data =>
      rw [runMain_csv st fs args data hread] at hrun
      rcases hA : add_noise st data args.column_name args.min_noise
        args.max_noise args.seed with ⟨st2, r2⟩
      rw [hA] at hrun
      cases r2 with
      | error e =>
        simp only [Prod.mk.injEq] at hrun
        exact hrun.2.1.symm
      | ok d2 =>
        simp only [Prod.mk.injEq] at hrun
        obtain ⟨-, -, hres⟩ := hrun
        exact absurd hres.symm hfail

/-- Witness for C8 on a missing input file. -/
theorem no_output_on_error_witness :
    ∃ st' fs' res,
      runMain st0 [] ⟨"missing.csv", "out.csv", "salary", 0, 1, none⟩ =
        (st', fs', res) ∧ res ≠ .success ∧ fs' = ([] : FS) := by
  refine ⟨_, _, _, rfl, by decide, ?_⟩
  exact no_output_on_error st0 []
    ⟨"missing.csv", "out.csv", "salary", 0, 1, none⟩ _ _ _ rfl (by decide)

/-- C9: `add_noise` mutates its input in place — on success the returned
reference is the very reference passed in, and the heap cell behind it now
holds the noised frame, overwriting the pre-transform values. -/
theorem inplace_mutation (st : ProcState) (h : Heap) (r : Nat) (cn : String)
    (a b : ℚ) (seed : Option Int) (st' : ProcState) (h' : Heap) (r' : Nat)
    (hok : add_noise_ref st h r cn a b seed = (st', h', .ok r')) :
    r' = r ∧ ∃ d', (add_noise st (h.getD r emptyDf) cn a b seed).2 = .ok d' ∧
      h' = h.set r d' ∧ (r < h.length → h'[r]? = some d') := by
  unfold add_noise_ref at hok
  rcases hA : add_noise st (h.getD r emptyDf) cn a b seed with ⟨st2, r2⟩
  rw [hA] at hok
  cases r2 with
  | error e => simp at hok
  | ok d2 =>
    simp only [Prod.mk.injEq, Except.ok.injEq] at hok
    obtain ⟨rfl, rfl, rfl⟩ := hok
    refine ⟨rfl, d2, rfl, rfl, ?_⟩
    intro hlen
    exact List.getElem?_set_self hlen

/-- Witness for C9 on a one-frame heap holding the salary example. -/
theorem inplace_mutation_witness :
    ∃ st' h' r',
      add_noise_ref st0 [salaryDf] 0 "salary" 0 1 none = (st', h', .ok r') ∧
      r' = 0 ∧ ∃ d', (add_noise st0 (([salaryDf] : Heap).getD 0 emptyDf)
          "salary" 0 1 none).2 = .ok d' ∧
        h' = ([salaryDf] : Heap).set 0 d' ∧
        (0 < ([salaryDf] : Heap).length → h'[0]? = some d') := by
  refine ⟨_, _, _, rfl, ?_⟩
  exact inplace_mutation st0 [salaryDf] 0 "salary" 0 1 none _ _ _ rfl

/-- C10: the output depends only on the numpy generator state — two calls
whose states agree on the numpy generator but may differ on the python
`random` state return identical results and identical final numpy states;
a supplied seed does reseed the python `random` module, whose state is recorded but
never drawn from. -/
theorem output_depends_only_on_numpy (st1 st2 : ProcState)
    (hnp : st1.npRandom = st2.npRandom) (d : DataFrame) (cn : String)
    (a b : ℚ) (seed : Option Int) :
    (add_noise st1 d cn a b seed).2 = (add_noise st2 d cn a b seed).2 ∧
    (add_noise st1 d cn a b seed).1.npRandom =
      (add_noise st2 d cn a b seed).1.npRandom ∧
    (∀ s d', seed = some s → (add_noise st1 d cn a b seed).2 = .ok d' →
      (add_noise st1 d cn a b seed).1.pyRandomSeed = some s) := by
  have heff : effRNG st1 seed = effRNG st2 seed := by
    cases seed with
    | none => exact hnp
    | some s => rfl
  unfold add_noise
  cases hd : d.getCol cn with
  | none =>
    refine ⟨rfl, hnp, ?_⟩
    intro s d' hs hok
    simp at hok
  | some col =>
    by_cases hn : numericCol col = true
    · by_cases hr : a ≥ b
      · refine ⟨by simp [hn, hr], by simp [hn, hr, hnp], ?_⟩
        intro s d' hs hok
        simp [hn, hr] at hok
      · refine ⟨by simp [hn, hr, heff], by simp [hn, hr, heff], ?_⟩
        intro s d' hs hok
        subst hs
        simp [hn, hr, pySeed]
    · refine ⟨by simp [hn], by simp [hn, hnp], ?_⟩
      intro s d' hs hok
      simp [hn] at hok

/-- Witness for C10: two states sharing the numpy generator but with
different python `random` states give identical results. -/
theorem output_depends_only_on_numpy_witness :
    (add_noise st0 salaryDf "salary" 0 1 (some 7)).2 =
      (add_noise ⟨st0.npRandom, some 99⟩ salaryDf "salary" 0 1 (some 7)).2 ∧
    (add_noise st0 salaryDf "salary" 0 1 (some 7)).1.npRandom =
      (add_noise ⟨st0.npRandom, some 99⟩ salaryDf "salary" 0 1 (some 7)).1.npRandom ∧
    (∀ s d', (some 7 : Option Int) = some s →
      (add_noise st0 salaryDf "salary" 0 1 (some 7)).2 = .ok d' →
      (add_noise st0 salaryDf "salary" 0 1 (some 7)).1.pyRandomSeed = some s) :=
  output_depends_only_on_numpy st0 ⟨st0.npRandom, some 99⟩ rfl salaryDf "salary" 0 1 (some 7)

end DM
